import Mathlib

/-!
Verification of the permit2 signature-transfer module (`src/signatureTransfer.ts`).

The module builds and hashes EIP-712 typed-data structures for single and batch
token-transfer permits, with an optional witness extension.  We give a shallow
embedding of the TypeScript source: JavaScript objects holding type declarations
become association lists in property-insertion order with JavaScript assignment
semantics, `bigint` fields become `Int`, thrown invariant violations become
`Except Fault`, and the external `hashTypedData` primitive from viem becomes an
explicit function parameter.  `Object.assign(permit, …)` mutates its first
argument in place, so the state of the caller's permit object after a call is
modelled explicitly as well.
-/

set_option autoImplicit false
set_option maxRecDepth 32768

deriving instance DecidableEq for Except

namespace Permit2

/-- One EIP-712 field declaration: a field name together with a field type. -/
structure FieldDef where
  name : String
  type : String
deriving DecidableEq, Repr

/-- The field list of one named struct type. -/
abbrev TypeFields := List FieldDef

/-- A JavaScript object mapping struct-type names to field lists, kept in
property-insertion order. -/
abbrev TypesMap := List (String × TypeFields)

/-- JavaScript property assignment on an object: an existing key keeps its
position and receives the new value, a new key is appended at the end. -/
def objInsert (m : TypesMap) (k : String) (v : TypeFields) : TypesMap :=
  if m.any (fun p => p.1 == k) then
    m.map (fun p => if p.1 == k then (k, v) else p)
  else
    m ++ [(k, v)]

/-- Building an object literal by listing or spreading further properties after
an initial object: each property is assigned in order, later wins. -/
def objExtend (m : TypesMap) (kvs : TypesMap) : TypesMap :=
  kvs.foldl (fun acc kv => objInsert acc kv.1 kv.2) m

/-- Whether the object has a property named `k`. -/
def hasKey (m : TypesMap) (k : String) : Bool :=
  m.any (fun p => p.1 == k)

/-- Property access: the value stored under key `k`, if any. -/
def objLookup (m : TypesMap) (k : String) : Option TypeFields :=
  (m.find? (fun p => p.1 == k)).map (fun p => p.2)

/-- Modelled from the spec: `MaxUint256`, the maximum unsigned 256-bit value;
`src/constants.ts` is not part of the sources, and spec section 6 describes each
bound as "a maximum unsigned-256-bit value defining valid ranges". -/
def MaxUint256 : Int := 2 ^ 256 - 1

/-- Modelled from the spec: the deadline bound from `src/constants.ts`. -/
def MaxSigDeadline : Int := MaxUint256

/-- Modelled from the spec: the nonce bound from `src/constants.ts`. -/
def MaxUnorderedNonce : Int := MaxUint256

/-- Modelled from the spec: the amount bound from `src/constants.ts`. -/
def MaxSignatureTransferAmount : Int := MaxUint256

/-- The EIP-712 signing-domain record produced by `permit2Domain`. -/
structure TypedDataDomain where
  name : String
  chainId : Int
  verifyingContract : String
deriving DecidableEq, Repr

/-- Modelled from the spec: `permit2Domain` from `src/domain.ts` is not part of
the sources; spec section 6 says it builds the EIP-712 domain object with a
fixed protocol name from the given chain id and contract address. -/
def permit2Domain (permit2Address : String) (chainId : Int) : TypedDataDomain :=
  { name := "Permit2", chainId := chainId, verifyingContract := permit2Address }

/-- The three distinguished range faults raised by `invariant` calls, named by
the message strings used in the source. -/
inductive Fault where
  | sigDeadlineOutOfRange
  | nonceOutOfRange
  | amountOutOfRange
deriving DecidableEq, Repr

/-- The `invariant(cond, message)` helper from tiny-invariant: throws when the
condition is false, modelled as an `Except` error carrying the fault. -/
def invariant (p : Prop) [Decidable p] (f : Fault) : Except Fault Unit :=
  if p then Except.ok () else Except.error f

/-- Embedding of `TokenPermissions`: a token address paired with an amount (`bigint`,
embedded as `Int`). -/
structure TokenPermissions where
  token : String
  amount : Int
deriving DecidableEq, Repr

/-- Embedding of `PermitTransferFrom`: a single-transfer permit.  The extra `witnessProp`
slot models the `witness` property that `Object.assign` may later add to the
JavaScript object; a permit as described by the TypeScript interface has
`witnessProp = none`.  `α` is the type of the opaque (`any`-typed) witness
payload. -/
structure PermitTransferFrom (α : Type) where
  permitted : TokenPermissions
  spender : String
  nonce : Int
  deadline : Int
  witnessProp : Option α := none
deriving DecidableEq, Repr

/-- Embedding of `PermitBatchTransferFrom`: as `PermitTransferFrom` but `permitted` is an
ordered list. -/
structure PermitBatchTransferFrom (α : Type) where
  permitted : List TokenPermissions
  spender : String
  nonce : Int
  deadline : Int
  witnessProp : Option α := none
deriving DecidableEq, Repr

/-- The `Witness` descriptor: opaque payload, name of the extension type, and
the witness's own type declarations. -/
structure Witness (α : Type) where
  witness : α
  witnessTypeName : String
  witnessType : TypesMap
deriving DecidableEq, Repr

/-- The `TOKEN_PERMISSIONS` field list constant. -/
def TOKEN_PERMISSIONS : TypeFields :=
  [⟨"token", "address"⟩, ⟨"amount", "uint256"⟩]

/-- The `PERMIT_TRANSFER_FROM_TYPES` constant object. -/
def PERMIT_TRANSFER_FROM_TYPES : TypesMap :=
  [("TokenPermissions", TOKEN_PERMISSIONS),
   ("PermitTransferFrom",
     [⟨"permitted", "TokenPermissions"⟩,
      ⟨"spender", "address"⟩,
      ⟨"nonce", "uint256"⟩,
      ⟨"deadline", "uint256"⟩])]

/-- The `PERMIT_BATCH_TRANSFER_FROM_TYPES` constant object. -/
def PERMIT_BATCH_TRANSFER_FROM_TYPES : TypesMap :=
  [("TokenPermissions", TOKEN_PERMISSIONS),
   ("PermitBatchTransferFrom",
     [⟨"permitted", "TokenPermissions[]"⟩,
      ⟨"spender", "address"⟩,
      ⟨"nonce", "uint256"⟩,
      ⟨"deadline", "uint256"⟩])]

/-- Embedding of `validateTokenPermissions`: the amount bound check. -/
def validateTokenPermissions (permissions : TokenPermissions) : Except Fault Unit :=
  invariant (MaxSignatureTransferAmount ≥ permissions.amount) Fault.amountOutOfRange

/-- Embedding of `permit.permitted.forEach(validateTokenPermissions)`: each element is
validated in list order; a thrown invariant aborts the iteration. -/
def forEachValidate : List TokenPermissions → Except Fault Unit
  | [] => Except.ok ()
  | tp :: rest =>
    match validateTokenPermissions tp with
    | Except.ok _ => forEachValidate rest
    | Except.error e => Except.error e

/-- The `PermitTransferFromData` result record of `getPermitTransferData`. -/
structure PermitTransferFromData (α : Type) where
  domain : TypedDataDomain
  types : TypesMap
  values : PermitTransferFrom α
deriving DecidableEq, Repr

/-- The `PermitBatchTransferFromData` result record. -/
structure PermitBatchTransferFromData (α : Type) where
  domain : TypedDataDomain
  types : TypesMap
  values : PermitBatchTransferFrom α
deriving DecidableEq, Repr

/-- Embedding of `SignatureTransfer.getPermitTransferData`.  The witness-extended types
object literal is built with JavaScript assignment order: the
`TokenPermissions` property first, then the spread of `witness.witnessType`,
then the `PermitWitnessTransferFrom` property.  `Object.assign(permit,
{witness: …})` stores the payload on the permit object itself and returns it,
so `values` is that updated object. -/
def getPermitTransferData {α : Type} (permit : PermitTransferFrom α)
    (permit2Address : String) (chainId : Int) (witness : Option (Witness α)) :
    Except Fault (PermitTransferFromData α) := do
  invariant (MaxSigDeadline ≥ permit.deadline) Fault.sigDeadlineOutOfRange
  invariant (MaxUnorderedNonce ≥ permit.nonce) Fault.nonceOutOfRange
  let domain := permit2Domain permit2Address chainId
  validateTokenPermissions permit.permitted
  let types : TypesMap :=
    match witness with
    | some w =>
        objExtend (objExtend [("TokenPermissions", TOKEN_PERMISSIONS)] w.witnessType)
          [("PermitWitnessTransferFrom",
             [⟨"permitted", "TokenPermissions"⟩,
              ⟨"spender", "address"⟩,
              ⟨"nonce", "uint256"⟩,
              ⟨"deadline", "uint256"⟩,
              ⟨"witness", w.witnessTypeName⟩])]
    | none => PERMIT_TRANSFER_FROM_TYPES
  let values : PermitTransferFrom α :=
    match witness with
    | some w => { permit with witnessProp := some w.witness }
    | none => permit
  return { domain := domain, types := types, values := values }

/-- Embedding of `SignatureTransfer.getPermitBatchTransferData`.  Note the different spread
order in the witness case: the spread of `witness.witnessType` comes first,
then the `TokenPermissions` property, then `PermitBatchWitnessTransferFrom`. -/
def getPermitBatchTransferData {α : Type} (permit : PermitBatchTransferFrom α)
    (permit2Address : String) (chainId : Int) (witness : Option (Witness α)) :
    Except Fault (PermitBatchTransferFromData α) := do
  invariant (MaxSigDeadline ≥ permit.deadline) Fault.sigDeadlineOutOfRange
  invariant (MaxUnorderedNonce ≥ permit.nonce) Fault.nonceOutOfRange
  let domain := permit2Domain permit2Address chainId
  forEachValidate permit.permitted
  let types : TypesMap :=
    match witness with
    | some w =>
        objExtend (objExtend [] w.witnessType)
          [("TokenPermissions", TOKEN_PERMISSIONS),
           ("PermitBatchWitnessTransferFrom",
             [⟨"permitted", "TokenPermissions[]"⟩,
              ⟨"spender", "address"⟩,
              ⟨"nonce", "uint256"⟩,
              ⟨"deadline", "uint256"⟩,
              ⟨"witness", w.witnessTypeName⟩])]
    | none => PERMIT_BATCH_TRANSFER_FROM_TYPES
  let values : PermitBatchTransferFrom α :=
    match witness with
    | some w => { permit with witnessProp := some w.witness }
    | none => permit
  return { domain := domain, types := types, values := values }

/-- The state of the caller's permit object after `getPermitTransferData`
returns.  `Object.assign(permit, {witness: …})` mutates the permit in place, so
on success with a witness the caller's object has gained the property (the
returned `values` aliases it); if an invariant throws first, the assignment is
never reached and the object is unchanged. -/
def permitAfterGetPermitTransferData {α : Type} (permit : PermitTransferFrom α)
    (permit2Address : String) (chainId : Int) (witness : Option (Witness α)) :
    PermitTransferFrom α :=
  match getPermitTransferData permit permit2Address chainId witness with
  | Except.ok r => r.values
  | Except.error _ => permit

/-- The state of the caller's permit object after `getPermitBatchTransferData`
returns; see `permitAfterGetPermitTransferData`. -/
def permitAfterGetPermitBatchTransferData {α : Type} (permit : PermitBatchTransferFrom α)
    (permit2Address : String) (chainId : Int) (witness : Option (Witness α)) :
    PermitBatchTransferFrom α :=
  match getPermitBatchTransferData permit permit2Address chainId witness with
  | Except.ok r => r.values
  | Except.error _ => permit

/-- The argument union `PermitTransferFrom | PermitBatchTransferFrom` of the
public entry points, discriminated structurally by whether `permitted` is an
array. -/
inductive AnyPermit (α : Type) where
  | single : PermitTransferFrom α → AnyPermit α
  | batch : PermitBatchTransferFrom α → AnyPermit α
deriving DecidableEq, Repr

/-- The `isPermitTransferFrom` type guard: `!Array.isArray(permit.permitted)`,
true exactly when `permitted` is a single struct rather than an array. -/
def isPermitTransferFrom {α : Type} : AnyPermit α → Bool
  | AnyPermit.single _ => true
  | AnyPermit.batch _ => false

/-- The result union `PermitTransferFromData | PermitBatchTransferFromData` of
`getPermitData`. -/
inductive PermitData (α : Type) where
  | single : PermitTransferFromData α → PermitData α
  | batch : PermitBatchTransferFromData α → PermitData α
deriving DecidableEq, Repr

/-- The `domain` component of either variant of the result. -/
def PermitData.domain {α : Type} : PermitData α → TypedDataDomain
  | PermitData.single r => r.domain
  | PermitData.batch r => r.domain

/-- The `types` component of either variant of the result. -/
def PermitData.types {α : Type} : PermitData α → TypesMap
  | PermitData.single r => r.types
  | PermitData.batch r => r.types

/-- The `values` component of either variant of the result, kept as the
single/batch union. -/
def PermitData.values {α : Type} : PermitData α → AnyPermit α
  | PermitData.single r => AnyPermit.single r.values
  | PermitData.batch r => AnyPermit.batch r.values

/-- Embedding of `SignatureTransfer.getPermitData`: dispatches on `isPermitTransferFrom`. -/
def getPermitData {α : Type} (permit : AnyPermit α) (permit2Address : String)
    (chainId : Int) (witness : Option (Witness α)) : Except Fault (PermitData α) :=
  match permit with
  | AnyPermit.single p =>
      (getPermitTransferData p permit2Address chainId witness).map PermitData.single
  | AnyPermit.batch p =>
      (getPermitBatchTransferData p permit2Address chainId witness).map PermitData.batch

/-- The argument record passed to the external `hashTypedData` primitive:
domain, types, primary-type name and the message object (`{...values}`). -/
structure HashTypedDataInput (α : Type) where
  domain : TypedDataDomain
  types : TypesMap
  primaryType : String
  message : AnyPermit α
deriving DecidableEq, Repr

/-- The argument record that `SignatureTransfer.hash` passes to `hashTypedData`,
built branch by branch exactly as in the source. -/
def hashInput {α : Type} (permit : AnyPermit α) (permit2Address : String)
    (chainId : Int) (witness : Option (Witness α)) :
    Except Fault (HashTypedDataInput α) :=
  match permit with
  | AnyPermit.single p => do
      let r ← getPermitTransferData p permit2Address chainId witness
      return { domain := r.domain, types := r.types,
               primaryType :=
                 if witness.isSome then "PermitWitnessTransferFrom"
                 else "PermitTransferFrom",
               message := AnyPermit.single r.values }
  | AnyPermit.batch p => do
      let r ← getPermitBatchTransferData p permit2Address chainId witness
      return { domain := r.domain, types := r.types,
               primaryType :=
                 if witness.isSome then "PermitBatchWitnessTransferFrom"
                 else "PermitBatchTransferFrom",
               message := AnyPermit.batch r.values }

/-- Embedding of `SignatureTransfer.hash`: builds the typed-data argument record and applies
the external hashing primitive, which the embedding takes as the function
parameter `hashTypedData`. -/
def hash {α : Type} (hashTypedData : HashTypedDataInput α → String)
    (permit : AnyPermit α) (permit2Address : String) (chainId : Int)
    (witness : Option (Witness α)) : Except Fault String :=
  (hashInput permit permit2Address chainId witness).map hashTypedData

/-- The primary-type name as a function of the pair (single?, witness
present?), read off the two conditional expressions in `hash`. -/
def primaryTypeName (single : Bool) (witnessPresent : Bool) : String :=
  if single then
    if witnessPresent then "PermitWitnessTransferFrom" else "PermitTransferFrom"
  else
    if witnessPresent then "PermitBatchWitnessTransferFrom" else "PermitBatchTransferFrom"


/-- The types object built in the witness branch of `getPermitTransferData`. -/
def singleWitnessTypes {α : Type} (w : Witness α) : TypesMap :=
  objExtend (objExtend [("TokenPermissions", TOKEN_PERMISSIONS)] w.witnessType)
    [("PermitWitnessTransferFrom",
       [⟨"permitted", "TokenPermissions"⟩,
        ⟨"spender", "address"⟩,
        ⟨"nonce", "uint256"⟩,
        ⟨"deadline", "uint256"⟩,
        ⟨"witness", w.witnessTypeName⟩])]

/-- The types object built in the witness branch of
`getPermitBatchTransferData`. -/
def batchWitnessTypes {α : Type} (w : Witness α) : TypesMap :=
  objExtend (objExtend [] w.witnessType)
    [("TokenPermissions", TOKEN_PERMISSIONS),
     ("PermitBatchWitnessTransferFrom",
       [⟨"permitted", "TokenPermissions[]"⟩,
        ⟨"spender", "address"⟩,
        ⟨"nonce", "uint256"⟩,
        ⟨"deadline", "uint256"⟩,
        ⟨"witness", w.witnessTypeName⟩])]

/-- Normal form of `getPermitTransferData`: the three checks in order, then the
assembled record. -/
lemma getPermitTransferData_eq {α : Type} (p : PermitTransferFrom α)
    (a : String) (c : Int) (w : Option (Witness α)) :
    getPermitTransferData p a c w =
      if MaxSigDeadline ≥ p.deadline then
        if MaxUnorderedNonce ≥ p.nonce then
          if MaxSignatureTransferAmount ≥ p.permitted.amount then
            Except.ok
              { domain := permit2Domain a c,
                types :=
                  match w with
                  | some ww => singleWitnessTypes ww
                  | none => PERMIT_TRANSFER_FROM_TYPES,
                values :=
                  match w with
                  | some ww => { p with witnessProp := some ww.witness }
                  | none => p }
          else Except.error Fault.amountOutOfRange
        else Except.error Fault.nonceOutOfRange
      else Except.error Fault.sigDeadlineOutOfRange := by
  simp only [getPermitTransferData, invariant, validateTokenPermissions,
    singleWitnessTypes]
  split_ifs <;> rfl

/-- Normal form of `getPermitBatchTransferData`: deadline and nonce checks,
then per-element amount validation, then the assembled record. -/
lemma getPermitBatchTransferData_eq {α : Type} (b : PermitBatchTransferFrom α)
    (a : String) (c : Int) (w : Option (Witness α)) :
    getPermitBatchTransferData b a c w =
      if MaxSigDeadline ≥ b.deadline then
        if MaxUnorderedNonce ≥ b.nonce then
          (forEachValidate b.permitted).map (fun _ =>
            { domain := permit2Domain a c,
              types :=
                match w with
                | some ww => batchWitnessTypes ww
                | none => PERMIT_BATCH_TRANSFER_FROM_TYPES,
              values :=
                match w with
                | some ww => { b with witnessProp := some ww.witness }
                | none => b })
        else Except.error Fault.nonceOutOfRange
      else Except.error Fault.sigDeadlineOutOfRange := by
  simp only [getPermitBatchTransferData, invariant, batchWitnessTypes]
  split_ifs
  all_goals rfl

/-- A batch validation pass succeeds exactly when every element's amount is
within the bound. -/
lemma forEachValidate_ok_iff (l : List TokenPermissions) :
    forEachValidate l = Except.ok ()
      ↔ ∀ tp ∈ l, tp.amount ≤ MaxSignatureTransferAmount := by
  induction l with
  | nil => simp [forEachValidate]
  | cons tp rest ih =>
    simp only [forEachValidate, validateTokenPermissions, invariant]
    by_cases h : MaxSignatureTransferAmount ≥ tp.amount
    · simp only [if_pos h]
      constructor
      · intro hrest tp2 hmem
        rcases List.mem_cons.mp hmem with h2 | h2
        · exact h2 ▸ h
        · exact (ih.mp hrest) tp2 h2
      · intro hall
        exact ih.mpr (fun tp2 hm => hall tp2 (List.mem_cons_of_mem _ hm))
    · simp only [if_neg h]
      constructor
      · intro hcontra
        exact absurd hcontra (by simp)
      · intro hall
        exact absurd (hall tp (List.mem_cons_self tp rest)) (by simpa using h)

/-- A batch validation pass stops at the first out-of-range element with the
amount fault, whatever follows it. -/
lemma forEachValidate_error_first (pre : List TokenPermissions)
    (bad : TokenPermissions) (post : List TokenPermissions)
    (hpre : ∀ tp ∈ pre, tp.amount ≤ MaxSignatureTransferAmount)
    (hbad : MaxSignatureTransferAmount < bad.amount) :
    forEachValidate (pre ++ bad :: post) = Except.error Fault.amountOutOfRange := by
  induction pre with
  | nil =>
    simp only [List.nil_append, forEachValidate, validateTokenPermissions,
      invariant, if_neg (not_le.mpr hbad)]
  | cons a as ih =>
    have ha : MaxSignatureTransferAmount ≥ a.amount :=
      hpre a (List.mem_cons_self a as)
    simp only [List.cons_append, forEachValidate, validateTokenPermissions,
      invariant, if_pos ha]
    exact ih (fun tp hm => hpre tp (List.mem_cons_of_mem _ hm))


/-- Replacing an entry under key `k` keeps the entry's key unchanged. -/
lemma key_of_replace (k : String) (v : TypeFields) (q : String)
    (p : String × TypeFields) :
    ((if p.1 == k then (k, v) else p).1 == q) = (p.1 == q) := by
  by_cases h : p.1 = k
  · simp [h]
  · simp [h]

/-- Replacing the value stored under key `k` does not change which keys the
object has. -/
lemma hasKey_map_replace (m : TypesMap) (k : String) (v : TypeFields) (q : String) :
    hasKey (m.map (fun p => if p.1 == k then (k, v) else p)) q = hasKey m q := by
  unfold hasKey
  rw [List.any_map]
  congr 1
  funext p
  exact key_of_replace k v q p

/-- JavaScript assignment adds the assigned key to the key set. -/
lemma hasKey_objInsert (m : TypesMap) (k : String) (v : TypeFields) (q : String) :
    hasKey (objInsert m k v) q = (hasKey m q || k == q) := by
  unfold objInsert
  split
  · rename_i h
    rw [hasKey_map_replace]
    by_cases hk : k = q
    · subst hk
      simp only [beq_self_eq_true, Bool.or_true]
      simpa [hasKey] using h
    · simp [hk]
  · unfold hasKey
    simp [List.any_append]

/-- Spreading an object adds exactly its keys to the key set. -/
lemma hasKey_objExtend (m kvs : TypesMap) (q : String) :
    hasKey (objExtend m kvs) q = (hasKey m q || hasKey kvs q) := by
  induction kvs generalizing m with
  | nil => simp [objExtend, hasKey]
  | cons a as ih =>
    have h1 : objExtend m (a :: as) = objExtend (objInsert m a.1 a.2) as := rfl
    rw [h1, ih, hasKey_objInsert]
    unfold hasKey
    simp [List.any_cons, Bool.or_assoc]

/-- Looking up a key right after assigning it yields the assigned value, in the
branch where the key was already present. -/
lemma find_map_replace (m : TypesMap) (k : String) (v : TypeFields)
    (h : hasKey m k = true) :
    (m.map (fun p => if p.1 == k then (k, v) else p)).find? (fun p => p.1 == k)
      = some (k, v) := by
  induction m with
  | nil => simp [hasKey] at h
  | cons a as ih =>
    simp only [List.map_cons]
    by_cases ha : a.1 = k
    · have hrep : (if a.1 == k then (k, v) else a) = (k, v) := by simp [ha]
      rw [hrep, List.find?_cons_of_pos _ (by simp)]
    · have h' : hasKey as k = true := by
        simpa [hasKey, List.any_cons, ha] using h
      have hrep : (if a.1 == k then (k, v) else a) = a := by simp [ha]
      rw [hrep, List.find?_cons_of_neg _ (by simp [ha])]
      exact ih h'

/-- Looking up a key right after appending it yields the appended value, in the
branch where the key was absent. -/
lemma find_append_new (m : TypesMap) (k : String) (v : TypeFields)
    (h : hasKey m k = false) :
    (m ++ [(k, v)]).find? (fun p => p.1 == k) = some (k, v) := by
  induction m with
  | nil =>
    rw [List.nil_append, List.find?_cons_of_pos _ (by simp)]
  | cons a as ih =>
    have ha : ¬(a.1 = k) := by
      intro hk
      simp [hasKey, List.any_cons, hk] at h
    have h' : hasKey as k = false := by
      simpa [hasKey, List.any_cons, ha] using h
    rw [List.cons_append, List.find?_cons_of_neg _ (by simp [ha])]
    exact ih h'

/-- Property access after a JavaScript assignment of the same key returns the
assigned value. -/
lemma objLookup_objInsert_self (m : TypesMap) (k : String) (v : TypeFields) :
    objLookup (objInsert m k v) k = some v := by
  unfold objInsert objLookup
  split
  · rename_i h
    rw [find_map_replace m k v h]
    rfl
  · rename_i h
    have hf : hasKey m k = false := by
      unfold hasKey
      exact Bool.eq_false_iff.mpr h
    rw [find_append_new m k v hf]
    rfl

/-- A map over a successful result applies the function. -/
lemma exceptMap_ok {ε α β : Type} (f : α → β) (x : α) :
    (Except.ok x : Except ε α).map f = Except.ok (f x) := rfl

/-- A map over an error passes the error through. -/
lemma exceptMap_error {ε α β : Type} (f : α → β) (e : ε) :
    (Except.error e : Except ε α).map f = Except.error e := rfl

/-- Spreading a one-property literal is a single assignment. -/
lemma objExtend_singleton (m : TypesMap) (k : String) (v : TypeFields) :
    objExtend m [(k, v)] = objInsert m k v := rfl

/-- Spreading a two-property literal is two assignments in order. -/
lemma objExtend_pair (m : TypesMap) (k1 : String) (v1 : TypeFields)
    (k2 : String) (v2 : TypeFields) :
    objExtend m [(k1, v1), (k2, v2)] = objInsert (objInsert m k1 v1) k2 v2 := rfl

/-- A successful single-permit call with no witness returns exactly the
assembled record: base types and the permit itself as values. -/
lemma getPermitTransferData_ok_none {α : Type} {p : PermitTransferFrom α}
    {a : String} {c : Int} {r : PermitTransferFromData α}
    (h : getPermitTransferData p a c none = Except.ok r) :
    r = { domain := permit2Domain a c,
          types := PERMIT_TRANSFER_FROM_TYPES,
          values := p } := by
  rw [getPermitTransferData_eq] at h
  split_ifs at h
  injection h with h2
  exact h2.symm

/-- A successful single-permit call with a witness returns exactly the
assembled record: extended types and the permit carrying the witness
property as values. -/
lemma getPermitTransferData_ok_some {α : Type} {p : PermitTransferFrom α}
    {a : String} {c : Int} {ww : Witness α} {r : PermitTransferFromData α}
    (h : getPermitTransferData p a c (some ww) = Except.ok r) :
    r = { domain := permit2Domain a c,
          types := singleWitnessTypes ww,
          values := { p with witnessProp := some ww.witness } } := by
  rw [getPermitTransferData_eq] at h
  split_ifs at h
  injection h with h2
  exact h2.symm

/-- A successful batch call with no witness returns exactly the assembled
record: base batch types and the permit itself as values. -/
lemma getPermitBatchTransferData_ok_none {α : Type}
    {b : PermitBatchTransferFrom α} {a : String} {c : Int}
    {r : PermitBatchTransferFromData α}
    (h : getPermitBatchTransferData b a c none = Except.ok r) :
    r = { domain := permit2Domain a c,
          types := PERMIT_BATCH_TRANSFER_FROM_TYPES,
          values := b } := by
  rw [getPermitBatchTransferData_eq] at h
  split_ifs at h
  cases hfe : forEachValidate b.permitted with
  | ok u =>
    cases u
    rw [hfe, exceptMap_ok] at h
    injection h with h2
    exact h2.symm
  | error e =>
    rw [hfe, exceptMap_error] at h
    exact Except.noConfusion h

/-- A successful batch call with a witness returns exactly the assembled
record: extended batch types and the permit carrying the witness property as
values. -/
lemma getPermitBatchTransferData_ok_some {α : Type}
    {b : PermitBatchTransferFrom α} {a : String} {c : Int} {ww : Witness α}
    {r : PermitBatchTransferFromData α}
    (h : getPermitBatchTransferData b a c (some ww) = Except.ok r) :
    r = { domain := permit2Domain a c,
          types := batchWitnessTypes ww,
          values := { b with witnessProp := some ww.witness } } := by
  rw [getPermitBatchTransferData_eq] at h
  split_ifs at h
  cases hfe : forEachValidate b.permitted with
  | ok u =>
    cases u
    rw [hfe, exceptMap_ok] at h
    injection h with h2
    exact h2.symm
  | error e =>
    rw [hfe, exceptMap_error] at h
    exact Except.noConfusion h

/-- Key set of the witness-extended single types object. -/
lemma hasKey_singleWitnessTypes {α : Type} (ww : Witness α) (k : String) :
    hasKey (singleWitnessTypes ww) k = true
      ↔ (hasKey ww.witnessType k = true ∨ k = "TokenPermissions"
          ∨ k = "PermitWitnessTransferFrom") := by
  unfold singleWitnessTypes
  rw [objExtend_singleton, hasKey_objInsert, hasKey_objExtend]
  simp only [hasKey, List.any_cons, List.any_nil, Bool.or_false, Bool.or_eq_true,
    beq_iff_eq]
  constructor
  · rintro ((h | h) | h)
    · exact Or.inr (Or.inl h.symm)
    · exact Or.inl (by simpa [hasKey] using h)
    · exact Or.inr (Or.inr h.symm)
  · rintro (h | h | h)
    · exact Or.inl (Or.inr (by simpa [hasKey] using h))
    · exact Or.inl (Or.inl h.symm)
    · exact Or.inr h.symm

/-- Key set of the witness-extended batch types object. -/
lemma hasKey_batchWitnessTypes {α : Type} (ww : Witness α) (k : String) :
    hasKey (batchWitnessTypes ww) k = true
      ↔ (hasKey ww.witnessType k = true ∨ k = "TokenPermissions"
          ∨ k = "PermitBatchWitnessTransferFrom") := by
  unfold batchWitnessTypes
  rw [objExtend_pair, hasKey_objInsert, hasKey_objInsert, hasKey_objExtend]
  simp only [hasKey, List.any_nil, Bool.false_or, Bool.or_eq_true, beq_iff_eq]
  constructor
  · rintro ((h | h) | h)
    · exact Or.inl (by simpa [hasKey] using h)
    · exact Or.inr (Or.inl h.symm)
    · exact Or.inr (Or.inr h.symm)
  · rintro (h | h | h)
    · exact Or.inl (Or.inl (by simpa [hasKey] using h))
    · exact Or.inl (Or.inr h.symm)
    · exact Or.inr h.symm

/-- Field list stored under the extended single primary type: the base fields
with the witness field appended. -/
lemma objLookup_singleWitnessTypes {α : Type} (ww : Witness α) :
    objLookup (singleWitnessTypes ww) "PermitWitnessTransferFrom"
      = some ([⟨"permitted", "TokenPermissions"⟩,
               ⟨"spender", "address"⟩,
               ⟨"nonce", "uint256"⟩,
               ⟨"deadline", "uint256"⟩]
              ++ [⟨"witness", ww.witnessTypeName⟩]) := by
  unfold singleWitnessTypes
  rw [objExtend_singleton, objLookup_objInsert_self]
  rfl

/-- Field list stored under the extended batch primary type: the base fields
with the witness field appended. -/
lemma objLookup_batchWitnessTypes {α : Type} (ww : Witness α) :
    objLookup (batchWitnessTypes ww) "PermitBatchWitnessTransferFrom"
      = some ([⟨"permitted", "TokenPermissions[]"⟩,
               ⟨"spender", "address"⟩,
               ⟨"nonce", "uint256"⟩,
               ⟨"deadline", "uint256"⟩]
              ++ [⟨"witness", ww.witnessTypeName⟩]) := by
  unfold batchWitnessTypes
  rw [objExtend_pair, objLookup_objInsert_self]
  rfl

/-- Concrete token permission used for evaluation. -/
def sampleTP : TokenPermissions := { token := "0xAAA", amount := 1000 }

/-- Concrete single permit used for evaluation. -/
def sampleSingle : PermitTransferFrom Nat :=
  { permitted := sampleTP, spender := "0xBBB", nonce := 0, deadline := 1700000000 }

/-- Concrete batch permit used for evaluation. -/
def sampleBatch : PermitBatchTransferFrom Nat :=
  { permitted := [sampleTP], spender := "0xBBB", nonce := 0, deadline := 1700000000 }

/-- Concrete witness descriptor used for evaluation. -/
def sampleWitness : Witness Nat :=
  { witness := 7, witnessTypeName := "MockWitness",
    witnessType := [("MockWitness", [⟨"mock", "uint256"⟩])] }

/-- Concrete stand-in for the external typed-data hashing primitive, used only
to evaluate the embedding at concrete inputs. -/
def sampleHashPrimitive : HashTypedDataInput Nat → String :=
  fun inp => inp.primaryType

/-- Concrete single permit sitting exactly on all three bounds. -/
def boundarySingle : PermitTransferFrom Nat :=
  { permitted := { token := "0xAAA", amount := MaxSignatureTransferAmount },
    spender := "0xBBB", nonce := MaxUnorderedNonce, deadline := MaxSigDeadline }


/-- Concrete out-of-range amount entry. -/
def overAmountTP : TokenPermissions :=
  { token := "0xAAA", amount := MaxSignatureTransferAmount + 1 }

/-- Concrete permit with the deadline just over its bound. -/
def overDeadlineSingle : PermitTransferFrom Nat :=
  { boundarySingle with deadline := MaxSigDeadline + 1 }

/-- Concrete permit with the nonce just over its bound. -/
def overNonceSingle : PermitTransferFrom Nat :=
  { boundarySingle with nonce := MaxUnorderedNonce + 1 }

/-- Concrete permit with the amount just over its bound. -/
def overAmountSingle : PermitTransferFrom Nat :=
  { boundarySingle with permitted := overAmountTP }

/-- Concrete permit with both deadline and nonce over their bounds. -/
def overDeadlineNonceSingle : PermitTransferFrom Nat :=
  { boundarySingle with deadline := MaxSigDeadline + 1, nonce := MaxUnorderedNonce + 1 }

/-- Concrete permit with both nonce and amount over their bounds. -/
def overNonceAmountSingle : PermitTransferFrom Nat :=
  { boundarySingle with nonce := MaxUnorderedNonce + 1, permitted := overAmountTP }

/-- Concrete batch permit with both deadline and nonce over their bounds. -/
def overDeadlineNonceBatch : PermitBatchTransferFrom Nat :=
  { sampleBatch with deadline := MaxSigDeadline + 1, nonce := MaxUnorderedNonce + 1 }

/-- Concrete batch permit with both nonce and an amount over their bounds. -/
def overNonceAmountBatch : PermitBatchTransferFrom Nat :=
  { sampleBatch with nonce := MaxUnorderedNonce + 1, permitted := [overAmountTP] }

/-- C1: the spec requires that `getPermitTransferData` and
`getPermitBatchTransferData` never mutate the caller's permit object, the
merged witness field existing only in the returned values object.  The code
violates this: `Object.assign(permit, ...)` stores the witness payload on the
caller's permit object itself and returns that same object as `values`.
Evaluated at a concrete permit and witness: after the call the caller's object
has gained the witness property, and the returned `values` is exactly that
mutated object. -/
theorem c1_getPermitTransferData_mutates_caller :
    permitAfterGetPermitTransferData sampleSingle "0xCCC" 1 (some sampleWitness)
        ≠ sampleSingle
    ∧ permitAfterGetPermitTransferData sampleSingle "0xCCC" 1 (some sampleWitness)
        = { sampleSingle with witnessProp := some sampleWitness.witness }
    ∧ (getPermitTransferData sampleSingle "0xCCC" 1 (some sampleWitness)).map
          (fun r => r.values)
        = Except.ok { sampleSingle with witnessProp := some sampleWitness.witness }
    ∧ permitAfterGetPermitBatchTransferData sampleBatch "0xCCC" 1 (some sampleWitness)
        ≠ sampleBatch := by
  refine ⟨by decide, by decide, by decide, by decide⟩

/-- C2: validation has an inclusive upper bound for each of the three checked
fields.  An amount within or equal to `MaxSignatureTransferAmount` passes
`validateTokenPermissions`, a strictly greater one fails with the amount
fault; a permit with all three fields within their bounds succeeds, while a
deadline, nonce, or amount strictly above its bound (the other, earlier
checked fields in range) makes `getPermitTransferData` return the
distinguished error for that field and no result. -/
theorem c2_validation_inclusive_bounds {α : Type} (p : PermitTransferFrom α)
    (a : String) (c : Int) (w : Option (Witness α)) (tp : TokenPermissions) :
    (tp.amount ≤ MaxSignatureTransferAmount →
       validateTokenPermissions tp = Except.ok ())
    ∧ (MaxSignatureTransferAmount < tp.amount →
       validateTokenPermissions tp = Except.error Fault.amountOutOfRange)
    ∧ (p.deadline ≤ MaxSigDeadline → p.nonce ≤ MaxUnorderedNonce →
       p.permitted.amount ≤ MaxSignatureTransferAmount →
       (getPermitTransferData p a c w).isOk = true)
    ∧ (MaxSigDeadline < p.deadline →
       getPermitTransferData p a c w = Except.error Fault.sigDeadlineOutOfRange)
    ∧ (p.deadline ≤ MaxSigDeadline → MaxUnorderedNonce < p.nonce →
       getPermitTransferData p a c w = Except.error Fault.nonceOutOfRange)
    ∧ (p.deadline ≤ MaxSigDeadline → p.nonce ≤ MaxUnorderedNonce →
       MaxSignatureTransferAmount < p.permitted.amount →
       getPermitTransferData p a c w = Except.error Fault.amountOutOfRange) := by
  refine ⟨?_, ?_, ?_, ?_, ?_, ?_⟩
  · intro h
    simp [validateTokenPermissions, invariant, ge_iff_le, h]
  · intro h
    simp [validateTokenPermissions, invariant, ge_iff_le, not_le.mpr h]
  · intro h1 h2 h3
    rw [getPermitTransferData_eq]
    simp only [ge_iff_le, if_pos h1, if_pos h2, if_pos h3]
    rfl
  · intro h
    rw [getPermitTransferData_eq]
    simp only [ge_iff_le, if_neg (not_le.mpr h)]
  · intro h1 h2
    rw [getPermitTransferData_eq]
    simp only [ge_iff_le, if_pos h1, if_neg (not_le.mpr h2)]
  · intro h1 h2 h3
    rw [getPermitTransferData_eq]
    simp only [ge_iff_le, if_pos h1, if_pos h2, if_neg (not_le.mpr h3)]

/-- C2 witness: the boundary law evaluated at the bounds themselves: a permit
sitting exactly on all three maxima passes, and raising any one field by one
produces the distinguished fault for that field. -/
theorem c2_validation_inclusive_bounds_witness :
    (getPermitTransferData boundarySingle "0xCCC" 1 none).isOk = true
    ∧ getPermitTransferData overDeadlineSingle "0xCCC" 1 none
        = Except.error Fault.sigDeadlineOutOfRange
    ∧ getPermitTransferData overNonceSingle "0xCCC" 1 none
        = Except.error Fault.nonceOutOfRange
    ∧ getPermitTransferData overAmountSingle "0xCCC" 1 none
        = Except.error Fault.amountOutOfRange
    ∧ validateTokenPermissions boundarySingle.permitted = Except.ok () := by
  refine ⟨?_, ?_, ?_, ?_, ?_⟩
  · exact (c2_validation_inclusive_bounds boundarySingle "0xCCC" 1 none sampleTP).2.2.1
      (by decide) (by decide) (by decide)
  · exact (c2_validation_inclusive_bounds overDeadlineSingle
      "0xCCC" 1 none sampleTP).2.2.2.1 (by decide)
  · exact (c2_validation_inclusive_bounds overNonceSingle
      "0xCCC" 1 none sampleTP).2.2.2.2.1 (by decide) (by decide)
  · exact (c2_validation_inclusive_bounds overAmountSingle
      "0xCCC" 1 none sampleTP).2.2.2.2.2 (by decide) (by decide) (by decide)
  · exact (c2_validation_inclusive_bounds boundarySingle "0xCCC" 1 none
      boundarySingle.permitted).1 (by decide)

/-- C10: the three bound checks have a fixed precedence in both entry points:
deadline first, then nonce, then the amount(s).  A permit whose deadline and
nonce are both out of range fails with the deadline fault; one whose nonce and
amount are out of range (deadline in range) fails with the nonce fault. -/
theorem c10_fault_precedence {α : Type} (p : PermitTransferFrom α)
    (b : PermitBatchTransferFrom α) (a : String) (c : Int)
    (w : Option (Witness α)) :
    (MaxSigDeadline < p.deadline → MaxUnorderedNonce < p.nonce →
       getPermitTransferData p a c w = Except.error Fault.sigDeadlineOutOfRange)
    ∧ (p.deadline ≤ MaxSigDeadline → MaxUnorderedNonce < p.nonce →
       MaxSignatureTransferAmount < p.permitted.amount →
       getPermitTransferData p a c w = Except.error Fault.nonceOutOfRange)
    ∧ (MaxSigDeadline < b.deadline → MaxUnorderedNonce < b.nonce →
       getPermitBatchTransferData b a c w = Except.error Fault.sigDeadlineOutOfRange)
    ∧ (b.deadline ≤ MaxSigDeadline → MaxUnorderedNonce < b.nonce →
       (∃ tp ∈ b.permitted, MaxSignatureTransferAmount < tp.amount) →
       getPermitBatchTransferData b a c w = Except.error Fault.nonceOutOfRange) := by
  refine ⟨?_, ?_, ?_, ?_⟩
  · intro h1 _
    rw [getPermitTransferData_eq]
    simp only [ge_iff_le, if_neg (not_le.mpr h1)]
  · intro h1 h2 _
    rw [getPermitTransferData_eq]
    simp only [ge_iff_le, if_pos h1, if_neg (not_le.mpr h2)]
  · intro h1 _
    rw [getPermitBatchTransferData_eq]
    simp only [ge_iff_le, if_neg (not_le.mpr h1)]
  · intro h1 h2 _
    rw [getPermitBatchTransferData_eq]
    simp only [ge_iff_le, if_pos h1, if_neg (not_le.mpr h2)]

/-- C10 witness: concrete permits with several bounds exceeded at once:
deadline and nonce over yields the deadline fault, nonce and amount over
yields the nonce fault, in both the single and the batch entry point. -/
theorem c10_fault_precedence_witness :
    getPermitTransferData overDeadlineNonceSingle "0xCCC" 1 none
      = Except.error Fault.sigDeadlineOutOfRange
    ∧ getPermitTransferData overNonceAmountSingle "0xCCC" 1 none
      = Except.error Fault.nonceOutOfRange
    ∧ getPermitBatchTransferData overDeadlineNonceBatch "0xCCC" 1 none
      = Except.error Fault.sigDeadlineOutOfRange
    ∧ getPermitBatchTransferData overNonceAmountBatch "0xCCC" 1 none
      = Except.error Fault.nonceOutOfRange := by
  refine ⟨?_, ?_, ?_, ?_⟩
  · exact (c10_fault_precedence overDeadlineNonceSingle sampleBatch
      "0xCCC" 1 none).1 (by decide) (by decide)
  · exact (c10_fault_precedence overNonceAmountSingle sampleBatch
      "0xCCC" 1 none).2.1 (by decide) (by decide) (by decide)
  · exact (c10_fault_precedence boundarySingle overDeadlineNonceBatch
      "0xCCC" 1 none).2.2.1 (by decide) (by decide)
  · exact (c10_fault_precedence boundarySingle overNonceAmountBatch
      "0xCCC" 1 none).2.2.2 (by decide) (by decide)
      ⟨overAmountTP, by decide, by decide⟩

/-- C3: dispatch is purely structural: a permit is treated as batch exactly
when its `permitted` field is an array, and a batch permit whose `permitted`
array has exactly one element still goes through the batch builder, gets the
batch type declarations and the batch primary-type name, never the
single-permit ones. -/
theorem c3_singleton_batch_still_batch {α : Type} (b : PermitBatchTransferFrom α)
    (tp : TokenPermissions) (a : String) (c : Int) (w : Option (Witness α))
    (_hb : b.permitted = [tp]) :
    isPermitTransferFrom (AnyPermit.batch b) = false
    ∧ getPermitData (AnyPermit.batch b) a c w
        = (getPermitBatchTransferData b a c w).map PermitData.batch
    ∧ (∀ d, getPermitData (AnyPermit.batch b) a c none = Except.ok d →
         d.types = PERMIT_BATCH_TRANSFER_FROM_TYPES
         ∧ hasKey d.types "PermitBatchTransferFrom" = true
         ∧ hasKey d.types "PermitTransferFrom" = false)
    ∧ (∀ inp, hashInput (AnyPermit.batch b) a c w = Except.ok inp →
         inp.primaryType
           = if w.isSome then "PermitBatchWitnessTransferFrom"
             else "PermitBatchTransferFrom") := by
  refine ⟨rfl, rfl, ?_, ?_⟩
  · intro d hd
    simp only [getPermitData] at hd
    cases hx : getPermitBatchTransferData b a c none with
    | error e =>
      rw [hx, exceptMap_error] at hd
      exact Except.noConfusion hd
    | ok r =>
      rw [hx, exceptMap_ok] at hd
      injection hd with h2
      subst h2
      have hr := getPermitBatchTransferData_ok_none hx
      subst hr
      exact ⟨rfl, by rfl, by rfl⟩
  · intro inp h
    simp only [hashInput] at h
    cases hx : getPermitBatchTransferData b a c w with
    | error e =>
      rw [hx] at h
      exact Except.noConfusion h
    | ok r =>
      rw [hx] at h
      injection h with h2
      subst h2
      rfl

/-- Concrete result record of the batch builder at the sample batch permit
with no witness. -/
def sampleBatchData : PermitBatchTransferFromData Nat :=
  { domain := permit2Domain "0xCCC" 1,
    types := PERMIT_BATCH_TRANSFER_FROM_TYPES,
    values := sampleBatch }

/-- C3 witness: a concrete batch permit whose permitted array has exactly one
element keeps the batch schema, the batch primary name, and never the single
ones. -/
theorem c3_singleton_batch_still_batch_witness :
    isPermitTransferFrom (AnyPermit.batch sampleBatch) = false
    ∧ (PermitData.batch sampleBatchData).types = PERMIT_BATCH_TRANSFER_FROM_TYPES
    ∧ hasKey (PermitData.batch sampleBatchData).types "PermitBatchTransferFrom" = true
    ∧ hasKey (PermitData.batch sampleBatchData).types "PermitTransferFrom" = false := by
  have h := c3_singleton_batch_still_batch sampleBatch sampleTP "0xCCC" 1 none (by decide)
  have h3 := h.2.2.1 (PermitData.batch sampleBatchData) (by decide)
  exact ⟨h.1, h3.1, h3.2.1, h3.2.2⟩

/-- C4: with a witness supplied, the produced types mapping has exactly the
keys of the witness's own type mapping plus `TokenPermissions` plus the
witness-extended primary struct; that primary struct's field list is the four
base fields with the witness field appended; and (provided the witness's own
mapping does not itself declare it) the non-witness base primary struct name
does not appear. -/
theorem c4_witness_types_exact {α : Type} (p : PermitTransferFrom α)
    (b : PermitBatchTransferFrom α) (a : String) (c : Int) (w : Witness α) :
    (∀ r, getPermitTransferData p a c (some w) = Except.ok r →
       (∀ k, hasKey r.types k = true
          ↔ (hasKey w.witnessType k = true ∨ k = "TokenPermissions"
              ∨ k = "PermitWitnessTransferFrom"))
       ∧ objLookup r.types "PermitWitnessTransferFrom"
           = some ([⟨"permitted", "TokenPermissions"⟩,
                    ⟨"spender", "address"⟩,
                    ⟨"nonce", "uint256"⟩,
                    ⟨"deadline", "uint256"⟩]
                   ++ [⟨"witness", w.witnessTypeName⟩])
       ∧ (hasKey w.witnessType "PermitTransferFrom" = false →
            hasKey r.types "PermitTransferFrom" = false))
    ∧ (∀ r, getPermitBatchTransferData b a c (some w) = Except.ok r →
       (∀ k, hasKey r.types k = true
          ↔ (hasKey w.witnessType k = true ∨ k = "TokenPermissions"
              ∨ k = "PermitBatchWitnessTransferFrom"))
       ∧ objLookup r.types "PermitBatchWitnessTransferFrom"
           = some ([⟨"permitted", "TokenPermissions[]"⟩,
                    ⟨"spender", "address"⟩,
                    ⟨"nonce", "uint256"⟩,
                    ⟨"deadline", "uint256"⟩]
                   ++ [⟨"witness", w.witnessTypeName⟩])
       ∧ (hasKey w.witnessType "PermitBatchTransferFrom" = false →
            hasKey r.types "PermitBatchTransferFrom" = false)) := by
  constructor
  · intro r h
    have hr := getPermitTransferData_ok_some h
    subst hr
    refine ⟨fun k => hasKey_singleWitnessTypes w k, objLookup_singleWitnessTypes w, ?_⟩
    intro hwt
    rcases hB : hasKey (singleWitnessTypes w) "PermitTransferFrom" with _ | _
    · rfl
    · exfalso
      rcases (hasKey_singleWitnessTypes w "PermitTransferFrom").mp hB with h1 | h1 | h1
      · rw [hwt] at h1
        exact Bool.false_ne_true h1
      · exact absurd h1 (by decide)
      · exact absurd h1 (by decide)
  · intro r h
    have hr := getPermitBatchTransferData_ok_some h
    subst hr
    refine ⟨fun k => hasKey_batchWitnessTypes w k, objLookup_batchWitnessTypes w, ?_⟩
    intro hwt
    rcases hB : hasKey (batchWitnessTypes w) "PermitBatchTransferFrom" with _ | _
    · rfl
    · exfalso
      rcases (hasKey_batchWitnessTypes w "PermitBatchTransferFrom").mp hB with h1 | h1 | h1
      · rw [hwt] at h1
        exact Bool.false_ne_true h1
      · exact absurd h1 (by decide)
      · exact absurd h1 (by decide)

/-- Concrete result record of the single builder at the sample permit with
the sample witness. -/
def sampleSingleWitnessData : PermitTransferFromData Nat :=
  { domain := permit2Domain "0xCCC" 1,
    types := singleWitnessTypes sampleWitness,
    values := { sampleSingle with witnessProp := some sampleWitness.witness } }

/-- C4 witness: the key-set law evaluated at a concrete permit and witness
descriptor: the witness's own key is present, the extended primary struct
carries the appended witness field, and the base primary name is absent. -/
theorem c4_witness_types_exact_witness :
    (hasKey sampleSingleWitnessData.types "MockWitness" = true
      ↔ (hasKey sampleWitness.witnessType "MockWitness" = true
          ∨ "MockWitness" = "TokenPermissions"
          ∨ "MockWitness" = "PermitWitnessTransferFrom"))
    ∧ objLookup sampleSingleWitnessData.types "PermitWitnessTransferFrom"
        = some ([⟨"permitted", "TokenPermissions"⟩,
                 ⟨"spender", "address"⟩,
                 ⟨"nonce", "uint256"⟩,
                 ⟨"deadline", "uint256"⟩]
                ++ [⟨"witness", sampleWitness.witnessTypeName⟩])
    ∧ hasKey sampleSingleWitnessData.types "PermitTransferFrom" = false := by
  have h := (c4_witness_types_exact sampleSingle sampleBatch "0xCCC" 1
    sampleWitness).1 sampleSingleWitnessData (by decide)
  exact ⟨h.1 "MockWitness", h.2.1, h.2.2 (by decide)⟩

/-- C7: with no witness supplied, the returned types mapping is exactly the
two-entry base schema (`TokenPermissions` and the base primary struct, the
batch one typing `permitted` as an array), and the returned values object is
the input permit unchanged. -/
theorem c7_no_witness_schema {α : Type} (p : PermitTransferFrom α)
    (b : PermitBatchTransferFrom α) (a : String) (c : Int) :
    (∀ r, getPermitTransferData p a c none = Except.ok r →
       r.types = PERMIT_TRANSFER_FROM_TYPES
       ∧ (∀ k, hasKey r.types k = true
            ↔ (k = "TokenPermissions" ∨ k = "PermitTransferFrom"))
       ∧ r.values = p)
    ∧ (∀ r, getPermitBatchTransferData b a c none = Except.ok r →
       r.types = PERMIT_BATCH_TRANSFER_FROM_TYPES
       ∧ (∀ k, hasKey r.types k = true
            ↔ (k = "TokenPermissions" ∨ k = "PermitBatchTransferFrom"))
       ∧ objLookup r.types "PermitBatchTransferFrom"
           = some [⟨"permitted", "TokenPermissions[]"⟩,
                   ⟨"spender", "address"⟩,
                   ⟨"nonce", "uint256"⟩,
                   ⟨"deadline", "uint256"⟩]
       ∧ r.values = b) := by
  constructor
  · intro r h
    have hr := getPermitTransferData_ok_none h
    subst hr
    refine ⟨rfl, ?_, rfl⟩
    intro k
    simp only [PERMIT_TRANSFER_FROM_TYPES, hasKey, List.any_cons, List.any_nil,
      Bool.or_false, Bool.or_eq_true, beq_iff_eq]
    constructor
    · rintro (h1 | h1)
      · exact Or.inl h1.symm
      · exact Or.inr h1.symm
    · rintro (h1 | h1)
      · exact Or.inl h1.symm
      · exact Or.inr h1.symm
  · intro r h
    have hr := getPermitBatchTransferData_ok_none h
    subst hr
    refine ⟨rfl, ?_, by rfl, rfl⟩
    intro k
    simp only [PERMIT_BATCH_TRANSFER_FROM_TYPES, hasKey, List.any_cons, List.any_nil,
      Bool.or_false, Bool.or_eq_true, beq_iff_eq]
    constructor
    · rintro (h1 | h1)
      · exact Or.inl h1.symm
      · exact Or.inr h1.symm
    · rintro (h1 | h1)
      · exact Or.inl h1.symm
      · exact Or.inr h1.symm

/-- Concrete result record of the single builder at the sample permit with no
witness. -/
def sampleSingleData : PermitTransferFromData Nat :=
  { domain := permit2Domain "0xCCC" 1,
    types := PERMIT_TRANSFER_FROM_TYPES,
    values := sampleSingle }

/-- C7 witness: the base-schema law evaluated at a concrete single permit
whose call succeeds. -/
theorem c7_no_witness_schema_witness :
    sampleSingleData.types = PERMIT_TRANSFER_FROM_TYPES
    ∧ (hasKey sampleSingleData.types "PermitTransferFrom" = true
        ↔ ("PermitTransferFrom" = "TokenPermissions"
            ∨ "PermitTransferFrom" = "PermitTransferFrom"))
    ∧ sampleSingleData.values = sampleSingle := by
  have h := (c7_no_witness_schema sampleSingle sampleBatch "0xCCC" 1).1
    sampleSingleData (by decide)
  exact ⟨h.1, h.2.1 "PermitTransferFrom", h.2.2⟩

/-- C5: `hash` equals the external typed-data hashing primitive applied to
exactly the domain/types/values triple that `getPermitData` returns for the
same arguments, with the primary type chosen by the same single/batch and
witness selection; `getPermitData` itself never invokes the primitive (in the
embedding it does not even receive it). -/
theorem c5_hash_refines_getPermitData {α : Type}
    (htd : HashTypedDataInput α → String) (q : AnyPermit α) (a : String)
    (c : Int) (w : Option (Witness α)) :
    hash htd q a c w
      = (getPermitData q a c w).map (fun d =>
          htd { domain := d.domain, types := d.types,
                primaryType := primaryTypeName (isPermitTransferFrom q) w.isSome,
                message := d.values }) := by
  cases q with
  | single p =>
    simp only [hash, hashInput, getPermitData, isPermitTransferFrom, primaryTypeName]
    cases getPermitTransferData p a c w with
    | ok r => rfl
    | error e => rfl
  | batch p =>
    simp only [hash, hashInput, getPermitData, isPermitTransferFrom, primaryTypeName]
    cases getPermitBatchTransferData p a c w with
    | ok r => rfl
    | error e => rfl

/-- C6: the primary-type name that `hash` passes to the hashing primitive is a
pure function of the pair (single?, witness present?), and is always one of
the four fixed names. -/
theorem c6_primary_type_pure {α : Type} (q : AnyPermit α) (a : String)
    (c : Int) (w : Option (Witness α)) (inp : HashTypedDataInput α)
    (h : hashInput q a c w = Except.ok inp) :
    inp.primaryType = primaryTypeName (isPermitTransferFrom q) w.isSome
    ∧ (inp.primaryType = "PermitTransferFrom"
       ∨ inp.primaryType = "PermitWitnessTransferFrom"
       ∨ inp.primaryType = "PermitBatchTransferFrom"
       ∨ inp.primaryType = "PermitBatchWitnessTransferFrom") := by
  cases q with
  | single p =>
    simp only [hashInput] at h
    cases hx : getPermitTransferData p a c w with
    | error e =>
      rw [hx] at h
      exact Except.noConfusion h
    | ok r =>
      rw [hx] at h
      injection h with h2
      subst h2
      refine ⟨rfl, ?_⟩
      cases w with
      | none => exact Or.inl rfl
      | some ww => exact Or.inr (Or.inl rfl)
  | batch p =>
    simp only [hashInput] at h
    cases hx : getPermitBatchTransferData p a c w with
    | error e =>
      rw [hx] at h
      exact Except.noConfusion h
    | ok r =>
      rw [hx] at h
      injection h with h2
      subst h2
      refine ⟨rfl, ?_⟩
      cases w with
      | none => exact Or.inr (Or.inr (Or.inl rfl))
      | some ww => exact Or.inr (Or.inr (Or.inr rfl))

/-- Concrete typed-data argument record built by `hashInput` at the sample
single permit with no witness. -/
def sampleHashInputSingle : HashTypedDataInput Nat :=
  { domain := permit2Domain "0xCCC" 1,
    types := PERMIT_TRANSFER_FROM_TYPES,
    primaryType := "PermitTransferFrom",
    message := AnyPermit.single sampleSingle }

/-- C6 witness: the primary-type law evaluated at the sample single permit
with no witness. -/
theorem c6_primary_type_pure_witness :
    sampleHashInputSingle.primaryType
      = primaryTypeName (isPermitTransferFrom (AnyPermit.single sampleSingle))
          (Option.isSome (none : Option (Witness Nat)))
    ∧ (sampleHashInputSingle.primaryType = "PermitTransferFrom"
       ∨ sampleHashInputSingle.primaryType = "PermitWitnessTransferFrom"
       ∨ sampleHashInputSingle.primaryType = "PermitBatchTransferFrom"
       ∨ sampleHashInputSingle.primaryType = "PermitBatchWitnessTransferFrom") :=
  c6_primary_type_pure (AnyPermit.single sampleSingle) "0xCCC" 1 none
    sampleHashInputSingle (by decide)

/-- C8: in a batch call the amount bound is checked on every element of the
permitted list in list order; the first violating element aborts the call
with the amount fault whatever comes after it (no aggregation of later
failures), and if every element is within the bound validation passes. -/
theorem c8_batch_amounts_in_order {α : Type} (b : PermitBatchTransferFrom α)
    (a : String) (c : Int) (w : Option (Witness α)) :
    (b.deadline ≤ MaxSigDeadline → b.nonce ≤ MaxUnorderedNonce →
       (∀ tp ∈ b.permitted, tp.amount ≤ MaxSignatureTransferAmount) →
       (getPermitBatchTransferData b a c w).isOk = true)
    ∧ (∀ pre bad post, b.permitted = pre ++ bad :: post →
       (∀ tp ∈ pre, tp.amount ≤ MaxSignatureTransferAmount) →
       MaxSignatureTransferAmount < bad.amount →
       b.deadline ≤ MaxSigDeadline → b.nonce ≤ MaxUnorderedNonce →
       getPermitBatchTransferData b a c w = Except.error Fault.amountOutOfRange) := by
  constructor
  · intro h1 h2 h3
    rw [getPermitBatchTransferData_eq]
    simp only [ge_iff_le, if_pos h1, if_pos h2]
    rw [(forEachValidate_ok_iff b.permitted).mpr h3]
    rfl
  · intro pre bad post hperm hpre hbad h1 h2
    rw [getPermitBatchTransferData_eq]
    simp only [ge_iff_le, if_pos h1, if_pos h2]
    rw [hperm, forEachValidate_error_first pre bad post hpre hbad]
    rfl

/-- Concrete batch permit whose second element violates the amount bound and
whose third element violates it as well: only the first violation is
reported. -/
def c8Batch : PermitBatchTransferFrom Nat :=
  { sampleBatch with permitted := [sampleTP, overAmountTP, overAmountTP] }

/-- C8 witness: an all-in-range batch passes, and a batch with a violating
element followed by another violating element fails with the single amount
fault. -/
theorem c8_batch_amounts_in_order_witness :
    (getPermitBatchTransferData sampleBatch "0xCCC" 1 none).isOk = true
    ∧ getPermitBatchTransferData c8Batch "0xCCC" 1 none
        = Except.error Fault.amountOutOfRange :=
  ⟨(c8_batch_amounts_in_order sampleBatch "0xCCC" 1 none).1
      (by decide) (by decide) (by decide),
   (c8_batch_amounts_in_order c8Batch "0xCCC" 1 none).2
      [sampleTP] overAmountTP [overAmountTP]
      (by decide) (by decide) (by decide) (by decide) (by decide)⟩

/-- C9: `hash` is deterministic: two calls whose permits, verifying-contract
addresses, chain ids and witnesses are equal as values return the identical
hash string. -/
theorem c9_hash_deterministic {α : Type} (htd : HashTypedDataInput α → String)
    (q1 q2 : AnyPermit α) (a1 a2 : String) (c1 c2 : Int)
    (w1 w2 : Option (Witness α)) (hq : q1 = q2) (ha : a1 = a2) (hc : c1 = c2)
    (hw : w1 = w2) :
    hash htd q1 a1 c1 w1 = hash htd q2 a2 c2 w2 := by
  subst hq
  subst ha
  subst hc
  subst hw
  rfl

/-- C9 witness: determinism evaluated at the sample permit with a concrete
stand-in hashing primitive. -/
theorem c9_hash_deterministic_witness :
    hash sampleHashPrimitive (AnyPermit.single sampleSingle) "0xCCC" 1 none
      = hash sampleHashPrimitive (AnyPermit.single sampleSingle) "0xCCC" 1 none :=
  c9_hash_deterministic sampleHashPrimitive (AnyPermit.single sampleSingle)
    (AnyPermit.single sampleSingle) "0xCCC" "0xCCC" 1 1 none none rfl rfl rfl rfl

end Permit2
